import Mathlib

/-!
Verification of the Firestore-to-Slack notifier
(`src/functions/src/index.ts`).

The development shallowly embeds the three functions of the source file:

* `jsonForSlack` — `JSON.stringify(value, replacer, 2)` where the replacer
  converts Firestore `Timestamp`s (objects exposing `toDate`) and `Date`s
  to ISO-8601 strings;
* `codeBlockWithLimit` — wrapping a string in a Slack fenced code block,
  truncating to `max - 20` characters with an explicit marker when the
  string exceeds `max`;
* `notifySlackOnNewMessage` — the Firestore `onDocumentCreated` handler,
  embedded as a pure function from the (optional) document data and the
  HTTP endpoint behaviour to the list of issued requests and the outcome.

Firestore document values are modelled by the tagged value type `FV`
(null / bool / number / string / Firestore timestamp / JS Date / array /
object); JS strings are modelled by Lean `String` (code points).
-/

/-! ## List/String helpers -/

/-- `listLeads p l` is true when `p` is an initial segment of `l`
(a Boolean prefix test on character lists). -/
def listLeads : List Char → List Char → Bool
  | [], _ => true
  | _ :: _, [] => false
  | a :: as, b :: bs => a == b && listLeads as bs

/-- `hasSubList sub l` is true when `sub` occurs contiguously inside `l`. -/
def hasSubList (sub : List Char) : List Char → Bool
  | [] => listLeads sub []
  | b :: bs => listLeads sub (b :: bs) || hasSubList sub bs

/-- `strContains s sub`: the string `sub` occurs as a contiguous substring
of `s`. -/
def strContains (s sub : String) : Bool :=
  hasSubList sub.data s.data

/-- `strEndsWith s t`: the string `t` is a suffix of `s`. -/
def strEndsWith (s t : String) : Bool :=
  listLeads t.data.reverse s.data.reverse

/-- `strTake s n`: the first `n` characters of `s` (all of `s` when
`n ≥ s.length`); models `String.prototype.slice(0, n)` for `n ≥ 0`. -/
def strTake (s : String) (n : Nat) : String :=
  String.mk (List.take n s.data)

/-- `n` spaces. -/
def spaces (n : Nat) : String :=
  String.mk (List.replicate n ' ')

/-- Left-pad a string with zeros to the given width. -/
def pad0 (width : Nat) (s : String) : String :=
  String.mk (List.replicate (width - s.length) '0') ++ s

/-- Decimal rendering of `n`, zero-padded to `width` digits. -/
def padNum (width n : Nat) : String := pad0 width (toString n)

/-! ## Date / time: `Date.prototype.toISOString`

JS dates are an integer count of milliseconds since the Unix epoch.
`civilFromDays` is the standard proleptic-Gregorian conversion from a day
number to a calendar date. -/

/-- Convert a day count relative to 1970-01-01 to `(year, month, day)`
in the proleptic Gregorian calendar. -/
def civilFromDays (z0 : Int) : Int × Nat × Nat :=
  let z : Int := z0 + 719468
  let era : Int := Int.fdiv z 146097
  let doe : Nat := (z - era * 146097).toNat
  let yoe : Nat := (doe - doe / 1460 + doe / 36524 - doe / 146096) / 365
  let doy : Nat := doe - (365 * yoe + yoe / 4 - yoe / 100)
  let mp : Nat := (5 * doy + 2) / 153
  let d : Nat := doy - (153 * mp + 2) / 5 + 1
  let m : Nat := if mp < 10 then mp + 3 else mp - 9
  let y : Int := (yoe : Int) + era * 400 + (if m ≤ 2 then 1 else 0)
  (y, m, d)

/-- The year component of an ISO-8601 timestamp, including the expanded
`±YYYYYY` form JS uses outside `0000`–`9999`. -/
def isoYear (y : Int) : String :=
  if y < 0 then "-" ++ padNum 6 y.natAbs
  else if y ≤ 9999 then padNum 4 y.toNat
  else "+" ++ padNum 6 y.toNat

/-- `Date.prototype.toISOString` on a millisecond epoch offset:
`YYYY-MM-DDTHH:MM:SS.mmmZ`. -/
def isoOfMillis (ms : Int) : String :=
  let days : Int := Int.fdiv ms 86400000
  let tod : Nat := (ms - days * 86400000).toNat
  let c := civilFromDays days
  let hh := tod / 3600000
  let mi := tod / 60000 % 60
  let ss := tod / 1000 % 60
  let mmm := tod % 1000
  isoYear c.1 ++ "-" ++ padNum 2 c.2.1 ++ "-" ++ padNum 2 c.2.2 ++ "T" ++
    padNum 2 hh ++ ":" ++ padNum 2 mi ++ ":" ++ padNum 2 ss ++ "." ++
    padNum 3 mmm ++ "Z"

/-- `Timestamp.prototype.toDate`: milliseconds of a Firestore timestamp
(`seconds` since epoch plus whole milliseconds of `nanoseconds`). -/
def tsMillis (sec : Int) (ns : Nat) : Int :=
  sec * 1000 + (ns / 1000000 : Nat)

/-! ## JSON string quoting (ECMA-404 / `QuoteJSONString`) -/

/-- Lower-case hexadecimal digit. -/
def hexDigitChar (n : Nat) : Char :=
  if n < 10 then Char.ofNat (48 + n) else Char.ofNat (87 + n)

/-- Escape one character the way `JSON.stringify` does. -/
def escapeJSONChar (c : Char) : String :=
  if c = Char.ofNat 34 then "\\\""
  else if c = Char.ofNat 92 then "\\\\"
  else if c = Char.ofNat 8 then "\\b"
  else if c = Char.ofNat 9 then "\\t"
  else if c = Char.ofNat 10 then "\\n"
  else if c = Char.ofNat 12 then "\\f"
  else if c = Char.ofNat 13 then "\\r"
  else if c.toNat < 32 then
    "\\u00" ++ String.mk [hexDigitChar (c.toNat / 16), hexDigitChar (c.toNat % 16)]
  else String.mk [c]

/-- The JSON quoted form of a string. -/
def quoteJSON (s : String) : String :=
  "\"" ++ String.join (s.data.map escapeJSONChar) ++ "\""

/-! ## Firestore document values -/

mutual

/-- A Firestore document field value: the tagged-variant model of the
untyped JS values the handler receives.  `timestamp sec ns` is a Firestore
`Timestamp` (an object exposing `toDate`, with own fields `_seconds` and
`_nanoseconds`); `date ms` is a JS `Date`. -/
inductive FV where
  | null : FV
  | bool : Bool → FV
  | num : Int → FV
  | str : String → FV
  | timestamp : Int → Nat → FV
  | date : Int → FV
  | arr : FVList → FV
  | obj : FVFields → FV

/-- A list of values (a JS array). -/
inductive FVList where
  | nil : FVList
  | cons : FV → FVList → FVList

/-- Ordered fields of a JS object (insertion order, as `JSON.stringify`
enumerates them). -/
inductive FVFields where
  | nil : FVFields
  | cons : String → FV → FVFields → FVFields

end

/-- Build `FVList` from a Lean list. -/
def listOfFV : List FV → FVList
  | [] => .nil
  | v :: t => .cons v (listOfFV t)

/-- Build `FVFields` from a Lean association list. -/
def fieldsOfFV : List (String × FV) → FVFields
  | [] => .nil
  | (k, v) :: t => .cons k v (fieldsOfFV t)

/-- Object constructor from an association list. -/
def FV.mkObj (l : List (String × FV)) : FV := .obj (fieldsOfFV l)

/-- Array constructor from a list. -/
def FV.mkArr (l : List FV) : FV := .arr (listOfFV l)

/-- Property lookup on a field list (first match, as JS objects hold each
key once). -/
def lookupFields : FVFields → String → Option FV
  | .nil, _ => none
  | .cons k v t, key => if k = key then some v else lookupFields t key

/-- Property access `v[k]` on an object value. -/
def FV.getField : FV → String → Option FV
  | .obj fs, k => lookupFields fs k
  | _, _ => none

/-- Index into an `FVList`. -/
def fvListGet : FVList → Nat → Option FV
  | .nil, _ => none
  | .cons v _, 0 => some v
  | .cons _ t, n + 1 => fvListGet t n

/-- Index access `v[i]` on an array value. -/
def FV.getIdx : FV → Nat → Option FV
  | .arr xs, i => fvListGet xs i
  | _, _ => none

/-- Extract the string of a string value. -/
def FV.asStr : FV → Option String
  | .str s => some s
  | _ => none

/-! ## `JSON.stringify`

`serialize repl gap ind v` renders `v` with `gap` spaces of indentation
per level (`gap = 0` is the compact form produced by a missing `space`
argument), starting at nesting depth `ind`.  When `repl` is true the
replacer of `jsonForSlack` is applied: values exposing `toDate` are
rendered as ISO strings.  A `Date` is rendered as an ISO string in both
modes, because `Date.prototype.toJSON` runs before the replacer; a
Firestore `Timestamp` has no `toJSON`, so without the replacer
`JSON.stringify` serializes its own fields `_seconds`/`_nanoseconds`. -/

/-- Separator between a key and its value: `": "` when pretty-printing,
`":"` in compact mode. -/
def keySep (gap : Nat) : String := if gap = 0 then ":" else ": "

/-- Assemble the rendered members of an object or array between the
brackets `o`/`c`, with the indentation rules of `JSON.stringify`. -/
def wrapList (gap ind : Nat) (o c : String) : List String → String
  | [] => o ++ c
  | p :: ps =>
    if gap = 0 then o ++ String.intercalate "," (p :: ps) ++ c
    else
      o ++ "\n" ++
        String.intercalate ",\n" ((p :: ps).map fun q => spaces ((ind + 1) * gap) ++ q) ++
        "\n" ++ spaces (ind * gap) ++ c

/-- The serialization of a Firestore `Timestamp` when the replacer is not
applied: its own enumerable fields, as `JSON.stringify` sees them. -/
def timestampRaw (gap ind : Nat) (sec : Int) (ns : Nat) : String :=
  wrapList gap ind "\x7b" "\x7d"
    [quoteJSON "_seconds" ++ keySep gap ++ toString sec,
     quoteJSON "_nanoseconds" ++ keySep gap ++ toString ns]

mutual

/-- `JSON.stringify` on a value (see the section comment). -/
def serialize (repl : Bool) (gap ind : Nat) : FV → String
  | .null => "null"
  | .bool b => if b then "true" else "false"
  | .num n => toString n
  | .str s => quoteJSON s
  | .date ms => quoteJSON (isoOfMillis ms)
  | .timestamp sec ns =>
    if repl then quoteJSON (isoOfMillis (tsMillis sec ns))
    else timestampRaw gap ind sec ns
  | .arr xs => wrapList gap ind "[" "]" (serializeList repl gap (ind + 1) xs)
  | .obj fs => wrapList gap ind "\x7b" "\x7d" (serializeFields repl gap (ind + 1) fs)

/-- Rendered elements of an array, each at depth `ind`. -/
def serializeList (repl : Bool) (gap ind : Nat) : FVList → List String
  | .nil => []
  | .cons v t => serialize repl gap ind v :: serializeList repl gap ind t

/-- Rendered `"key": value` members of an object, each at depth `ind`. -/
def serializeFields (repl : Bool) (gap ind : Nat) : FVFields → List String
  | .nil => []
  | .cons k v t =>
    (quoteJSON k ++ keySep gap ++ serialize repl gap ind v) ::
      serializeFields repl gap ind t

end

/-- `jsonForSlack` of the source: `JSON.stringify(value, replacer, 2)`
with the timestamp-normalizing replacer. -/
def jsonForSlack (v : FV) : String := serialize true 2 0 v

/-! ## `codeBlockWithLimit` -/

/-- `String.prototype.slice(0, e)` with a possibly negative end index:
a negative `e` counts from the end of the string, and the result is
clamped to the string. -/
def jsSliceTo (s : String) (e : Int) : String :=
  if e < 0 then strTake s ((s.length : Int) + e).toNat
  else strTake s (min e.toNat s.length)

/-- The literal suffix appended when the raw-data serialization is
truncated. -/
def truncationMarker : String := "\n… (truncated)"

/-- `codeBlockWithLimit` of the source: wrap `s` in a Slack fenced code
block; when `s` is longer than `max`, keep `s.slice(0, max - 20)` and
append the truncation marker. -/
def codeBlockWithLimit (s : String) (max : Nat) : String :=
  if s.length ≤ max then "```" ++ s ++ "```"
  else "```" ++ jsSliceTo s ((max : Int) - 20) ++ "\n… (truncated)```"

/-! ## The handler `notifySlackOnNewMessage` -/

/-- `v ?? FV.str ""`: the nullish coalescing `data.message ?? ""` applied
to a present field value. -/
def coalesceEmpty : FV → FV
  | .null => .str ""
  | v => v

/-- The summary body text: `data.message` verbatim when it is a string,
otherwise `JSON.stringify(data.message ?? "", null, 2)` (an absent field
reads as `undefined`, which also coalesces to `""`). -/
def messageText (data : FVFields) : String :=
  match lookupFields data "message" with
  | some (.str s) => s
  | some v => serialize false 2 0 (coalesceEmpty v)
  | none => serialize false 2 0 (.str "")

/-- The Slack payload object assembled by the handler. -/
def payload (docId : String) (data : FVFields) : FV :=
  FV.mkObj
    [("text", .str ("New Firestore message: " ++ docId)),
     ("blocks", FV.mkArr
       [FV.mkObj
         [("type", .str "header"),
          ("text", FV.mkObj
            [("type", .str "plain_text"),
             ("text", .str "New Firestore message")])],
        FV.mkObj
         [("type", .str "section"),
          ("text", FV.mkObj
            [("type", .str "plain_text"),
             ("text", .str (messageText data))])],
        FV.mkObj
         [("type", .str "section"),
          ("fields", FV.mkArr
            [FV.mkObj
              [("type", .str "mrkdwn"),
               ("text", .str "*Collection:*\nmessages")],
             FV.mkObj
              [("type", .str "mrkdwn"),
               ("text", .str ("*Doc ID:*\n" ++ docId))]])],
        FV.mkObj
         [("type", .str "section"),
          ("text", FV.mkObj
            [("type", .str "mrkdwn"),
             ("text", .str (codeBlockWithLimit (jsonForSlack (.obj data)) 2900))])]])]

/-- An outbound HTTP request as issued by the single `fetch` of the handler. -/
structure SlackRequest where
  url : String
  method : String
  contentType : String
  body : String
deriving DecidableEq, Repr

/-- The HTTP response the endpoint returns: its status code, and the
result of reading its body text (`.error ()` when `res.text()` rejects). -/
structure HttpResponse where
  status : Nat
  bodyRead : Except Unit String

/-- `Response.ok`: status in the inclusive range 200–299. -/
def respOk (r : HttpResponse) : Bool :=
  decide (200 ≤ r.status ∧ r.status < 300)

/-- `await res.text().catch(() => "")`: the body text, with a read
failure swallowed into the empty string. -/
def readBodyCaught (r : HttpResponse) : String :=
  match r.bodyRead with
  | .ok b => b
  | .error _ => ""

/-- The tail of the handler: succeed on an ok response, otherwise throw
`Slack webhook failed: <status> <body>`. -/
def handleResponse (r : HttpResponse) : Except String Unit :=
  if respOk r then .ok ()
  else .error ("Slack webhook failed: " ++ toString r.status ++ " " ++ readBodyCaught r)

/-- The single `fetch` request the handler issues for document `docId`
with data `data`: a POST of the JSON-encoded payload with a JSON
content type. -/
def buildRequest (webhookUrl docId : String) (data : FVFields) : SlackRequest :=
  { url := webhookUrl
    method := "POST"
    contentType := "application/json"
    body := serialize false 0 0 (payload docId data) }

/-- The handler `notifySlackOnNewMessage`, embedded as a pure function.
`eventData` is `event.data?.data()` (`none` when the event carries no
payload); `respond` is the behaviour of the HTTP endpoint.  The result lists
every request issued during the invocation, paired with the outcome
(`.error` models the thrown exception). -/
def notifySlackOnNewMessage (webhookUrl docId : String)
    (eventData : Option FVFields) (respond : SlackRequest → HttpResponse) :
    List SlackRequest × Except String Unit :=
  match eventData with
  | none => ([], .ok ())
  | some data =>
    let req := buildRequest webhookUrl docId data
    ([req], handleResponse (respond req))

/-! ## Timestamp normalization (for the ISO-rendering property) -/

mutual

/-- Replace every date/time value, at any depth, by its ISO-8601 string. -/
def normalizeTimes : FV → FV
  | .timestamp sec ns => .str (isoOfMillis (tsMillis sec ns))
  | .date ms => .str (isoOfMillis ms)
  | .arr xs => .arr (normalizeTimesList xs)
  | .obj fs => .obj (normalizeTimesFields fs)
  | .null => .null
  | .bool b => .bool b
  | .num n => .num n
  | .str s => .str s

/-- `normalizeTimes` on array elements. -/
def normalizeTimesList : FVList → FVList
  | .nil => .nil
  | .cons v t => .cons (normalizeTimes v) (normalizeTimesList t)

/-- `normalizeTimes` on object fields. -/
def normalizeTimesFields : FVFields → FVFields
  | .nil => .nil
  | .cons k v t => .cons k (normalizeTimes v) (normalizeTimesFields t)

end

mutual

/-- `timeFree v`: `v` contains no date/time value at any depth. -/
def timeFree : FV → Bool
  | .timestamp _ _ => false
  | .date _ => false
  | .arr xs => timeFreeList xs
  | .obj fs => timeFreeFields fs
  | .null => true
  | .bool _ => true
  | .num _ => true
  | .str _ => true

/-- `timeFree` on array elements. -/
def timeFreeList : FVList → Bool
  | .nil => true
  | .cons v t => timeFree v && timeFreeList t

/-- `timeFree` on object fields. -/
def timeFreeFields : FVFields → Bool
  | .nil => true
  | .cons _ v t => timeFree v && timeFreeFields t

end

/-! ## Helper lemmas -/

/-- A list is an initial segment of itself followed by anything. -/
theorem listLeads_append (p q : List Char) : listLeads p (p ++ q) = true := by
  induction p with
  | nil => rfl
  | cons a as ih => simp [listLeads, ih]

/-- The empty list occurs in every list. -/
theorem hasSubList_nil (l : List Char) : hasSubList [] l = true := by
  cases l <;> simp [hasSubList, listLeads]

/-- `sub` occurs in `a ++ sub ++ c`. -/
theorem hasSubList_parts (a sub c : List Char) :
    hasSubList sub (a ++ sub ++ c) = true := by
  induction a with
  | nil =>
    cases sub with
    | nil => simpa using hasSubList_nil c
    | cons s ss =>
      have h := listLeads_append (s :: ss) c
      simp only [hasSubList, List.nil_append, List.cons_append, Bool.or_eq_true]
      exact Or.inl h
  | cons x xs ih =>
    simp only [hasSubList, List.cons_append, Bool.or_eq_true, List.append_assoc] at ih ⊢
    exact Or.inr (by simpa using ih)

/-- A middle factor is a substring of the whole string. -/
theorem strContains_parts (a b c : String) :
    strContains (a ++ b ++ c) b = true := by
  have h := hasSubList_parts a.data b.data c.data
  simpa [strContains, String.data_append] using h

/-- A right factor is a substring of the whole string. -/
theorem strContains_tail (a b : String) : strContains (a ++ b) b = true := by
  have h := strContains_parts a b ""
  rwa [String.append_empty] at h

/-- A string ends with its right factor. -/
theorem strEndsWith_append (a t : String) : strEndsWith (a ++ t) t = true := by
  have h := listLeads_append t.data.reverse a.data.reverse
  simp [strEndsWith, String.data_append, List.reverse_append, h]

/-- Length of `strTake`. -/
theorem strTake_length (s : String) (n : Nat) :
    (strTake s n).length = min n s.length := by
  show (List.take n s.data).length = min n s.length
  exact List.length_take n s.data

/-- Length of `spaces`. -/
theorem spaces_length (n : Nat) : (spaces n).length = n := by
  show (List.replicate n ' ').length = n
  exact List.length_replicate n ' '

mutual

/-- The replacer mode of the serializer agrees with plain serialization of
the timestamp-normalized value. -/
theorem serialize_normalizeTimes : ∀ (gap ind : Nat) (v : FV),
    serialize true gap ind v = serialize false gap ind (normalizeTimes v)
  | _, _, .null => by simp [serialize, normalizeTimes]
  | _, _, .bool _ => by simp [serialize, normalizeTimes]
  | _, _, .num _ => by simp [serialize, normalizeTimes]
  | _, _, .str _ => by simp [serialize, normalizeTimes]
  | _, _, .timestamp _ _ => by simp [serialize, normalizeTimes]
  | _, _, .date _ => by simp [serialize, normalizeTimes]
  | gap, ind, .arr xs => by
    have h := serialize_normalizeTimesList gap (ind + 1) xs
    simp [serialize, normalizeTimes, h]
  | gap, ind, .obj fs => by
    have h := serialize_normalizeTimesFields gap (ind + 1) fs
    simp [serialize, normalizeTimes, h]

/-- `serialize_normalizeTimes` on array elements. -/
theorem serialize_normalizeTimesList : ∀ (gap ind : Nat) (xs : FVList),
    serializeList true gap ind xs =
      serializeList false gap ind (normalizeTimesList xs)
  | _, _, .nil => by simp [serializeList, normalizeTimesList]
  | gap, ind, .cons v t => by
    have h1 := serialize_normalizeTimes gap ind v
    have h2 := serialize_normalizeTimesList gap ind t
    simp [serializeList, normalizeTimesList, h1, h2]

/-- `serialize_normalizeTimes` on object fields. -/
theorem serialize_normalizeTimesFields : ∀ (gap ind : Nat) (fs : FVFields),
    serializeFields true gap ind fs =
      serializeFields false gap ind (normalizeTimesFields fs)
  | _, _, .nil => by simp [serializeFields, normalizeTimesFields]
  | gap, ind, .cons k v t => by
    have h1 := serialize_normalizeTimes gap ind v
    have h2 := serialize_normalizeTimesFields gap ind t
    simp [serializeFields, normalizeTimesFields, h1, h2]

end

mutual

/-- The normalized value contains no date/time value at any depth. -/
theorem timeFree_normalizeTimes : ∀ v : FV, timeFree (normalizeTimes v) = true
  | .null => by simp [normalizeTimes, timeFree]
  | .bool _ => by simp [normalizeTimes, timeFree]
  | .num _ => by simp [normalizeTimes, timeFree]
  | .str _ => by simp [normalizeTimes, timeFree]
  | .timestamp _ _ => by simp [normalizeTimes, timeFree]
  | .date _ => by simp [normalizeTimes, timeFree]
  | .arr xs => by
    have h := timeFree_normalizeTimesList xs
    simp [normalizeTimes, timeFree, h]
  | .obj fs => by
    have h := timeFree_normalizeTimesFields fs
    simp [normalizeTimes, timeFree, h]

/-- `timeFree_normalizeTimes` on array elements. -/
theorem timeFree_normalizeTimesList : ∀ xs : FVList,
    timeFreeList (normalizeTimesList xs) = true
  | .nil => by simp [normalizeTimesList, timeFreeList]
  | .cons v t => by
    have h1 := timeFree_normalizeTimes v
    have h2 := timeFree_normalizeTimesList t
    simp [normalizeTimesList, timeFreeList, h1, h2]

/-- `timeFree_normalizeTimes` on object fields. -/
theorem timeFree_normalizeTimesFields : ∀ fs : FVFields,
    timeFreeFields (normalizeTimesFields fs) = true
  | .nil => by simp [normalizeTimesFields, timeFreeFields]
  | .cons _ v t => by
    have h1 := timeFree_normalizeTimes v
    have h2 := timeFree_normalizeTimesFields t
    simp [normalizeTimesFields, timeFreeFields, h1, h2]

end

/-! ## Claim theorems -/

/-- Claim C1: for every string `s` longer than the budget `max` (with the
budget at least the 20-character truncation offset, as the default 2900
is), the fenced block consists of the first `max - 20` characters of `s`
with the truncation marker appended before the closing fence; its length
equals `max - 20` plus the length of the truncation marker with both
fences included (which is 20, so the block is exactly `max` characters
and never exceeds the budget plus marker overhead); and it ends with the
truncation marker followed by the closing fence. -/
theorem codeBlock_truncation_C1 (s : String) (max : Nat)
    (hmax : 20 ≤ max) (hs : max < s.length) :
    codeBlockWithLimit s max =
      ("```" ++ strTake s (max - 20)) ++ (truncationMarker ++ "```") ∧
    (codeBlockWithLimit s max).length =
      max - 20 + ("```" ++ truncationMarker ++ "```").length ∧
    strEndsWith (codeBlockWithLimit s max) (truncationMarker ++ "```") = true := by
  have hnle : ¬ s.length ≤ max := Nat.not_le.mpr hs
  have he : ¬ ((max : Int) - 20 < 0) := by omega
  have hslice : jsSliceTo s ((max : Int) - 20) = strTake s (max - 20) := by
    unfold jsSliceTo
    rw [if_neg he]
    congr 1
    omega
  have hmarker : ("\n… (truncated)```" : String) = truncationMarker ++ "```" := rfl
  have hres : codeBlockWithLimit s max =
      ("```" ++ strTake s (max - 20)) ++ (truncationMarker ++ "```") := by
    unfold codeBlockWithLimit
    rw [if_neg hnle, hslice, hmarker]
  refine ⟨hres, ?_, ?_⟩
  · have h3 : ("```" : String).length = 3 := rfl
    have h17 : (truncationMarker ++ "```" : String).length = 17 := rfl
    have h20 : (("```" ++ truncationMarker ++ "```" : String)).length = 20 := rfl
    rw [hres, String.length_append, String.length_append, strTake_length, h3, h17, h20]
    omega
  · rw [hres]
    exact strEndsWith_append _ _

/-- Witness for C1 at the default budget 2900 and a 2901-character
string. -/
theorem codeBlock_truncation_C1_witness :
    20 ≤ 2900 ∧ 2900 < (spaces 2901).length ∧
      (codeBlockWithLimit (spaces 2901) 2900 =
        ("```" ++ strTake (spaces 2901) (2900 - 20)) ++ (truncationMarker ++ "```") ∧
      (codeBlockWithLimit (spaces 2901) 2900).length =
        2900 - 20 + ("```" ++ truncationMarker ++ "```").length ∧
      strEndsWith (codeBlockWithLimit (spaces 2901) 2900)
        (truncationMarker ++ "```") = true) :=
  ⟨by decide, by rw [spaces_length]; decide,
    codeBlock_truncation_C1 (spaces 2901) 2900 (by decide)
      (by rw [spaces_length]; decide)⟩

/-- Claim C6: a string at or under the budget is wrapped in the fences
unmodified, with no truncation and no marker. -/
theorem codeBlock_unmodified_C6 (s : String) (max : Nat) (h : s.length ≤ max) :
    codeBlockWithLimit s max = "```" ++ s ++ "```" := by
  unfold codeBlockWithLimit
  rw [if_pos h]

/-- Witness for C6. -/
theorem codeBlock_unmodified_C6_witness :
    ("hi" : String).length ≤ 2900 ∧
      codeBlockWithLimit "hi" 2900 = "```" ++ "hi" ++ "```" :=
  ⟨by decide, codeBlock_unmodified_C6 "hi" 2900 (by decide)⟩

/-- Claim C3: the full serialization `jsonForSlack` renders every
date/time value (Firestore `Timestamp`s exposing `toDate`, and `Date`s)
at any nesting depth as its ISO-8601 string: the output is exactly the
plain serialization of the record with every such value replaced by its
ISO-8601 string (`normalizeTimes`), and the replaced record contains no
date/time value in internal form at any depth. -/
theorem jsonForSlack_iso_C3 (v : FV) :
    jsonForSlack v = serialize false 2 0 (normalizeTimes v) ∧
    timeFree (normalizeTimes v) = true :=
  ⟨serialize_normalizeTimes 2 0 v, timeFree_normalizeTimes v⟩

/-- Claim C4: when the `message` field of the record holds a string, the
summary body text is that string verbatim. -/
theorem messageText_verbatim_C4 (data : FVFields) (s : String)
    (h : lookupFields data "message" = some (.str s)) :
    messageText data = s := by
  simp [messageText, h]

/-- Witness for C4. -/
theorem messageText_verbatim_C4_witness :
    lookupFields (fieldsOfFV [("message", .str "hello")]) "message" =
        some (.str "hello") ∧
      messageText (fieldsOfFV [("message", .str "hello")]) = "hello" :=
  ⟨rfl, messageText_verbatim_C4 _ "hello" rfl⟩

/-- Claim C5: when the record has no `message` field, the summary text is
the serialization of the empty value: `data.message ?? ""` coalesces the
absent field to `""`, whose JSON serialization is the two-character
string `""`. -/
theorem messageText_absent_C5 (data : FVFields)
    (h : lookupFields data "message" = none) :
    messageText data = serialize false 2 0 (.str "") ∧
    serialize false 2 0 (.str "") = "\"\"" := by
  constructor
  · simp [messageText, h]
  · rfl

/-- Witness for C5. -/
theorem messageText_absent_C5_witness :
    lookupFields (fieldsOfFV [("other", .num 1)]) "message" = none ∧
      (messageText (fieldsOfFV [("other", .num 1)]) =
          serialize false 2 0 (.str "") ∧
        serialize false 2 0 (.str "") = "\"\"") :=
  ⟨rfl, messageText_absent_C5 _ rfl⟩

/-- Claim C10: when the `message` field is present but not a string, the
summary text is the plain pretty-printed `JSON.stringify` of
`message ?? ""` with no replacer (so no timestamp-to-ISO normalization);
a null value coalesces to `""` exactly like an absent field, while any
other value is serialized unchanged. -/
theorem messageText_nonstring_C10 (data : FVFields) (v : FV)
    (h : lookupFields data "message" = some v) (hs : ∀ s, v ≠ FV.str s) :
    messageText data = serialize false 2 0 (coalesceEmpty v) ∧
    (v = FV.null → messageText data = "\"\"") ∧
    (v ≠ FV.null → coalesceEmpty v = v) := by
  refine ⟨?_, ?_, ?_⟩
  · cases v with
    | str s => exact absurd rfl (hs s)
    | null => simp [messageText, h]
    | bool b => simp [messageText, h]
    | num n => simp [messageText, h]
    | timestamp sec ns => simp [messageText, h]
    | date ms => simp [messageText, h]
    | arr xs => simp [messageText, h]
    | obj fs => simp [messageText, h]
  · intro hv
    subst hv
    simp [messageText, h, coalesceEmpty]
    rfl
  · intro hv
    cases v with
    | null => exact absurd rfl hv
    | str s => exact absurd rfl (hs s)
    | bool b => rfl
    | num n => rfl
    | timestamp sec ns => rfl
    | date ms => rfl
    | arr xs => rfl
    | obj fs => rfl

/-- Witness for C10: a numeric `message`. -/
theorem messageText_nonstring_C10_witness :
    lookupFields (fieldsOfFV [("message", .num 7)]) "message" =
        some (.num 7) ∧
      (messageText (fieldsOfFV [("message", .num 7)]) =
          serialize false 2 0 (coalesceEmpty (.num 7)) ∧
        (FV.num 7 = FV.null →
          messageText (fieldsOfFV [("message", .num 7)]) = "\"\"") ∧
        (FV.num 7 ≠ FV.null → coalesceEmpty (.num 7) = FV.num 7)) :=
  ⟨rfl, messageText_nonstring_C10 _ (.num 7) rfl
    (fun _ h => FV.noConfusion h)⟩

/-- Claim C7: on a non-success HTTP status the handler fails with an
error whose text contains the status code and the response body; a
failure while reading the body is swallowed into an empty body and the
delivery error is still raised with the status code. -/
theorem deliveryError_C7 (r : HttpResponse) (h : respOk r = false) :
    handleResponse r =
      .error ("Slack webhook failed: " ++ toString r.status ++ " " ++
        readBodyCaught r) ∧
    strContains
      ("Slack webhook failed: " ++ toString r.status ++ " " ++ readBodyCaught r)
      (toString r.status) = true ∧
    (∀ b, r.bodyRead = .ok b →
      strContains
        ("Slack webhook failed: " ++ toString r.status ++ " " ++
          readBodyCaught r) b = true) ∧
    (r.bodyRead = .error () →
      handleResponse r =
        .error ("Slack webhook failed: " ++ toString r.status ++ " ")) := by
  refine ⟨by simp [handleResponse, h], ?_, ?_, ?_⟩
  · have hp := strContains_parts "Slack webhook failed: " (toString r.status)
      (" " ++ readBodyCaught r)
    simpa [String.append_assoc] using hp
  · intro b hb
    have hbody : readBodyCaught r = b := by simp [readBodyCaught, hb]
    rw [hbody]
    exact strContains_tail _ b
  · intro hb
    have hbody : readBodyCaught r = "" := by simp [readBodyCaught, hb]
    simp [handleResponse, h, hbody, String.append_empty]

/-- The concrete failing response of spec property 7. -/
def c7resp : HttpResponse := ⟨500, .ok "oops"⟩

/-- Witness for C7 at status 500 with body `oops`. -/
theorem deliveryError_C7_witness :
    respOk c7resp = false ∧
      (handleResponse c7resp =
        .error ("Slack webhook failed: " ++ toString c7resp.status ++ " " ++
          readBodyCaught c7resp) ∧
      strContains
        ("Slack webhook failed: " ++ toString c7resp.status ++ " " ++
          readBodyCaught c7resp) (toString c7resp.status) = true ∧
      (∀ b, c7resp.bodyRead = .ok b →
        strContains
          ("Slack webhook failed: " ++ toString c7resp.status ++ " " ++
            readBodyCaught c7resp) b = true) ∧
      (c7resp.bodyRead = .error () →
        handleResponse c7resp =
          .error ("Slack webhook failed: " ++ toString c7resp.status ++ " "))) :=
  ⟨by decide, deliveryError_C7 c7resp (by decide)⟩

/-- Claim C8: an event with no payload makes the handler exit
successfully with no outbound request issued. -/
theorem noPayload_C8 (webhookUrl docId : String)
    (respond : SlackRequest → HttpResponse) :
    notifySlackOnNewMessage webhookUrl docId none respond =
      ([], Except.ok ()) := rfl

/-- Claim C9: for a present payload the handler issues exactly one
request: a POST with content type `application/json` whose body is the
compact JSON of the payload; the payload has a top-level `text` summary
naming the record id, and its `blocks` are, in order, the fixed-title
header, the plain-text summary section, the fields section listing the
collection `messages` and the record id, and the fenced (possibly
truncated) raw-data section — and nothing else. -/
theorem assembly_C9 (webhookUrl docId : String) (data : FVFields)
    (respond : SlackRequest → HttpResponse) :
    (notifySlackOnNewMessage webhookUrl docId (some data) respond).1 =
      [buildRequest webhookUrl docId data] ∧
    (notifySlackOnNewMessage webhookUrl docId (some data) respond).1.length = 1 ∧
    buildRequest webhookUrl docId data =
      { url := webhookUrl, method := "POST", contentType := "application/json",
        body := serialize false 0 0 (payload docId data) } ∧
    FV.getField (payload docId data) "text" =
      some (.str ("New Firestore message: " ++ docId)) ∧
    (FV.getField (payload docId data) "blocks").bind (fun b => FV.getIdx b 0) =
      some (FV.mkObj
        [("type", .str "header"),
         ("text", FV.mkObj
           [("type", .str "plain_text"),
            ("text", .str "New Firestore message")])]) ∧
    (FV.getField (payload docId data) "blocks").bind (fun b => FV.getIdx b 1) =
      some (FV.mkObj
        [("type", .str "section"),
         ("text", FV.mkObj
           [("type", .str "plain_text"),
            ("text", .str (messageText data))])]) ∧
    (FV.getField (payload docId data) "blocks").bind (fun b => FV.getIdx b 2) =
      some (FV.mkObj
        [("type", .str "section"),
         ("fields", FV.mkArr
           [FV.mkObj
             [("type", .str "mrkdwn"),
              ("text", .str "*Collection:*\nmessages")],
            FV.mkObj
             [("type", .str "mrkdwn"),
              ("text", .str ("*Doc ID:*\n" ++ docId))]])]) ∧
    (FV.getField (payload docId data) "blocks").bind (fun b => FV.getIdx b 3) =
      some (FV.mkObj
        [("type", .str "section"),
         ("text", FV.mkObj
           [("type", .str "mrkdwn"),
            ("text", .str (codeBlockWithLimit (jsonForSlack (.obj data)) 2900))])]) ∧
    (FV.getField (payload docId data) "blocks").bind (fun b => FV.getIdx b 4) =
      none :=
  ⟨rfl, rfl, rfl, rfl, rfl, rfl, rfl, rfl, rfl⟩

/-! ## The concrete record of spec property 6 (claim C2) -/

/-- The record `(message: "hello", ts: 2024-01-01T00:00:00Z)` of spec
property 6 (`1704067200` seconds since the epoch). -/
def c2data : FVFields :=
  fieldsOfFV [("message", .str "hello"), ("ts", .timestamp 1704067200 0)]

/-- The payload the handler renders for the record of spec property 6
with id `abc123`. -/
def c2payload : FV := payload "abc123" c2data

/-- The `text` strings of a list of field objects. -/
def fieldTextsOf : FVList → List String
  | .nil => []
  | .cons v t =>
    match (FV.getField v "text").bind FV.asStr with
    | some s => s :: fieldTextsOf t
    | none => fieldTextsOf t

/-- The texts of the field section of the rendered payload (its third
block). -/
def c2fieldTexts : List String :=
  match ((FV.getField c2payload "blocks").bind (fun b => FV.getIdx b 2)).bind
      (fun b => FV.getField b "fields") with
  | some (.arr xs) => fieldTextsOf xs
  | _ => []

/-- The text of the raw-data section of the rendered payload (its fourth
block). -/
def c2rawText : String :=
  (((((FV.getField c2payload "blocks").bind (fun b => FV.getIdx b 3)).bind
      (fun b => FV.getField b "text")).bind
      (fun t => FV.getField t "text")).bind FV.asStr).getD ""

set_option maxRecDepth 20000 in
/-- Claim C2 fails as stated: the field section of the rendered payload
for the record of spec property 6 holds the texts
`*Collection:*\nmessages` and `*Doc ID:*\nabc123`; because of the mrkdwn
`*` directly before the newline, no field text contains the substring
`Doc ID:\nabc123`, nor does the serialized payload body. -/
theorem c2_counterexample :
    c2fieldTexts = ["*Collection:*\nmessages", "*Doc ID:*\nabc123"] ∧
    (c2fieldTexts.all fun t => ! strContains t "Doc ID:\nabc123") = true ∧
    strContains (serialize false 0 0 c2payload) "Doc ID:\nabc123" = false :=
  ⟨rfl, by decide, by decide⟩

/-- Claim C2 (amended): the field section contains
`*Doc ID:*\nabc123` — the Doc ID entry with its mrkdwn bold markers —
and the raw-data section contains `2024-01-01T00:00:00.000Z`. -/
theorem c2_amended_C2 :
    (c2fieldTexts.any fun t => strContains t "*Doc ID:*\nabc123") = true ∧
    strContains c2rawText "2024-01-01T00:00:00.000Z" = true :=
  ⟨by decide, by decide⟩
